import Mathlib

/-!
Verification development for the CodeYou job-board client pipeline.

The JavaScript sources `jobBoard.js` and `dashboard.js` are shallowly
embedded below.  JavaScript strings are modelled as `List Char`
(written `Str`), and JavaScript numbers as `ℚ` (the numeric values that
actually arise in the pipeline — parsed salaries and their midpoints —
are exact in IEEE doubles, so `ℚ` is a faithful carrier for them).
Rational constants are built with `Rat.divInt` so that closed instances
reduce inside the kernel; the lemma `ratAvg_eq` ties that encoding to
the textbook `(x + y) / 2` form.
-/

namespace CodeYouJobBoard

/-- JavaScript strings, modelled as lists of characters. -/
abbrev Str := List Char

/-- Whitespace recognised by JavaScript `String.prototype.trim`
(the characters that occur in this data set). -/
def jsIsSpace (c : Char) : Bool :=
  c = ' ' || c = '\t' || c = '\n' || c = '\r' || c = '\x0b' || c = '\x0c'

/-- JavaScript `str.trim()`: strip leading and trailing whitespace. -/
def jsTrim (s : Str) : Str :=
  ((s.dropWhile jsIsSpace).reverse.dropWhile jsIsSpace).reverse

/-- JavaScript `str.toLowerCase()` on the ASCII data of this sheet. -/
def toLowerS (s : Str) : Str := s.map Char.toLower

/-- JavaScript `str.split(sep)` for a one-character separator. -/
def splitOnC (sep : Char) (s : Str) : List Str := List.splitOn sep s

/-- JavaScript `hay.includes(needle)` (substring test). -/
def containsS (hay needle : Str) : Bool := decide (needle <:+: hay)

/-- JavaScript `parseFloat` on the (already trimmed) cell fragments that
occur in the sheet: an optional sign, then a longest prefix of digits
with an optional fractional part.  `none` models the `NaN` result.
Exponent forms never occur in this data and are not modelled. -/
def digitsToNat (ds : Str) : ℕ :=
  ds.foldl (fun acc c => 10 * acc + (c.toNat - 48)) 0

def parseFloatJS (s : Str) : Option ℚ :=
  let signed : Bool × Str :=
    match s with
    | '-' :: r => (true, r)
    | '+' :: r => (false, r)
    | _ => (false, s)
  let ip := signed.2.takeWhile Char.isDigit
  let rest := signed.2.dropWhile Char.isDigit
  let fp :=
    match rest with
    | '.' :: r2 => r2.takeWhile Char.isDigit
    | _ => []
  if ip = [] ∧ fp = [] then none
  else
    let mag : ℚ := Rat.divInt (digitsToNat ip * 10 ^ fp.length + digitsToNat fp) (10 ^ fp.length)
    some (if signed.1 then -mag else mag)

/-- JavaScript `x || null` applied to a number-or-null: `0` (and `NaN`,
already `none` here) is falsy and collapses to `null`. -/
def jsOrNullQ (o : Option ℚ) : Option ℚ :=
  match o with
  | none => none
  | some q => if q = 0 then none else some q

/-- JavaScript coercion of a number-or-null to a number inside
arithmetic: `null` becomes `0`. -/
def jsNumQ (o : Option ℚ) : ℚ := o.getD 0

/-- JavaScript `a || b` for a number-or-null `a`: `a` unless it is
falsy (`null` or `0`). -/
def jsOrOpt (a b : Option ℚ) : Option ℚ :=
  match a with
  | none => b
  | some q => if q = 0 then b else some q

/-- JavaScript truthiness test for a number-or-null value. -/
def jsFalsyOpt (o : Option ℚ) : Bool :=
  match o with
  | none => true
  | some q => q = 0

/-- Midpoint `(x + y) / 2`, written with `Rat.divInt` so that closed
instances reduce by `decide`; `ratAvg_eq` proves it equal to the
textbook form. -/
def ratAvg (x y : ℚ) : ℚ :=
  Rat.divInt (x.num * (y.den : ℤ) + y.num * (x.den : ℤ)) (2 * ((x.den : ℤ) * (y.den : ℤ)))

theorem ratAvg_eq (x y : ℚ) : ratAvg x y = (x + y) / 2 := by
  unfold ratAvg
  rw [Rat.divInt_eq_div]
  push_cast
  have hx : ((x.den : ℚ)) ≠ 0 := by exact_mod_cast (Rat.den_ne_zero x)
  have hy : ((y.den : ℚ)) ≠ 0 := by exact_mod_cast (Rat.den_ne_zero y)
  conv_rhs => rw [← Rat.num_div_den x, ← Rat.num_div_den y]
  field_simp
  ring_nf
  tauto

/-! ## CSV line parsing (`dashboard.js`, `parseCSVLine`)

The dashboard parser walks the line with an `inQuotes` flag: a quote
character toggles the flag (and is itself discarded), a comma outside
quotes ends the current cell, and every other character is appended to
the current cell; cells are trimmed as they are pushed. -/

def parseCSVLineAux : List Char → Str → Bool → List Str
  | [], cur, _ => [jsTrim cur]
  | c :: cs, cur, q =>
    if c = '"' then parseCSVLineAux cs cur (!q)
    else if c = ',' ∧ q = false then jsTrim cur :: parseCSVLineAux cs [] q
    else parseCSVLineAux cs (cur ++ [c]) q

def parseCSVLine (line : Str) : List Str := parseCSVLineAux line [] false

/-- Modelled from the spec's words, for comparison with the code:
split a line into chunks at exactly the commas that lie outside
double-quoted spans, leaving every other character (quotes included)
inside its chunk. -/
def splitUnquoted : List Char → Bool → List Str
  | [], _ => [[]]
  | c :: cs, q =>
    if c = ',' ∧ q = false then [] :: splitUnquoted cs q
    else
      match splitUnquoted cs (if c = '"' then !q else q) with
      | [] => [[c]]
      | h :: t => (c :: h) :: t

/-- Unquote-and-trim applied per chunk by the code path. -/
def cleanChunk (ch : Str) : Str := jsTrim (ch.filter (fun c => c ≠ '"'))

theorem splitUnquoted_ne_nil (cs : List Char) (q : Bool) : splitUnquoted cs q ≠ [] := by
  cases cs with
  | nil => simp [splitUnquoted]
  | cons c cs =>
    simp only [splitUnquoted]
    split
    · simp
    · split <;> simp

theorem cleanChunk_append_quote (a b : Str) :
    cleanChunk (a ++ '"' :: b) = cleanChunk (a ++ b) := by
  simp [cleanChunk, List.filter_append, List.filter]

theorem cleanChunk_of_noquote (a : Str) (ha : ∀ c ∈ a, c ≠ '"') :
    cleanChunk a = jsTrim a := by
  unfold cleanChunk
  congr 1
  rw [List.filter_eq_self]
  intro c hc
  simpa using ha c hc

theorem parseCSVLineAux_eq (cs : List Char) :
    ∀ (q : Bool) (cur : Str), (∀ c ∈ cur, c ≠ '"') →
      parseCSVLineAux cs cur q =
        cleanChunk (cur ++ (splitUnquoted cs q).headD []) ::
          ((splitUnquoted cs q).tailD []).map cleanChunk := by
  induction cs with
  | nil =>
    intro q cur hcur
    simp [parseCSVLineAux, splitUnquoted, cleanChunk_of_noquote cur hcur]
  | cons c cs ih =>
    intro q cur hcur
    by_cases hq : c = '"'
    · subst hq
      have hne : splitUnquoted cs (!q) ≠ [] := splitUnquoted_ne_nil cs (!q)
      cases hsp : splitUnquoted cs (!q) with
      | nil => exact absurd hsp hne
      | cons h t =>
        have hcq : ¬ (('"' : Char) = ',' ∧ q = false) := by
          rintro ⟨h1, -⟩; exact absurd h1 (by decide)
        have hstep : parseCSVLineAux ('"' :: cs) cur q = parseCSVLineAux cs cur (!q) := by
          simp [parseCSVLineAux]
        have hsplit : splitUnquoted ('"' :: cs) q = ('"' :: h) :: t := by
          simp [splitUnquoted, hcq, hsp]
        rw [hstep, hsplit, ih (!q) cur hcur, hsp]
        simp only [List.headD, List.tailD]
        rw [cleanChunk_append_quote]
    · by_cases hc : c = ',' ∧ q = false
      · obtain ⟨hc1, hc2⟩ := hc
        subst hc1 hc2
        simp only [parseCSVLineAux, splitUnquoted]
        rw [if_neg (by decide), if_pos (by decide), if_pos (by decide)]
        rw [ih false [] (by intro c hc; cases hc)]
        have hne := splitUnquoted_ne_nil cs false
        cases hsp : splitUnquoted cs false with
        | nil => exact absurd hsp hne
        | cons h t =>
          simp only [hsp, List.headD, List.tailD, List.map, List.append_nil,
            List.nil_append]
          rw [cleanChunk_of_noquote cur hcur]
      · simp only [parseCSVLineAux, splitUnquoted]
        rw [if_neg hq, if_neg hc, if_neg hc]
        have hcur' : ∀ d ∈ cur ++ [c], d ≠ '"' := by
          intro d hd
          rcases List.mem_append.mp hd with h1 | h1
          · exact hcur d h1
          · simp only [List.mem_singleton] at h1; subst h1; exact hq
        rw [ih q (cur ++ [c]) hcur']
        have hne := splitUnquoted_ne_nil cs q
        cases hsp : splitUnquoted cs q with
        | nil => exact absurd hsp hne
        | cons h t =>
          rw [if_neg hq, hsp]
          simp only [List.headD, List.tailD]
          rw [List.append_assoc]
          simp

/-- The code's cell list is exactly: split at unquoted commas, then per
chunk drop the quote characters and trim. -/
theorem parseCSVLine_splits (line : Str) :
    parseCSVLine line = (splitUnquoted line false).map cleanChunk := by
  rw [parseCSVLine, parseCSVLineAux_eq line false [] (by intro c hc; cases hc)]
  have hne := splitUnquoted_ne_nil line false
  cases hsp : splitUnquoted line false with
  | nil => exact absurd hsp hne
  | cons h t => simp [hsp]

/-! ## Field coercions (`createJobs` in `dashboard.js`; `jobBoard.js` is
identical except that it stores no `avg`) -/

/-- A normalised `Salary Range` cell: `{ min, max, avg }`. -/
structure Salary where
  min : Option ℚ
  max : Option ℚ
  avg : ℚ
deriving DecidableEq

/-- JavaScript `trimmedCell.replace(/[$,]/g, "")`. -/
def stripDollarComma (s : Str) : Str := s.filter (fun c => c ≠ '$' ∧ c ≠ ',')

/-- The `.split("-")` segments of the `$`- and `,`-stripped cell. -/
def salarySegments (cell : Str) : List Str := splitOnC '-' (stripDollarComma cell)

/-- Salary coercion: `min = parseFloat(seg0.trim()) || null`,
`max = segs.length > 1 ? parseFloat(seg1.trim()) || null : null`,
`avg = (min + (max || min)) / 2` with `null` coerced to `0`. -/
def parseSalaryDash (trimmedCell : Str) : Salary :=
  let segs := salarySegments trimmedCell
  let mn := jsOrNullQ (parseFloatJS (jsTrim (segs.headD [])))
  let mx :=
    if 1 < segs.length then jsOrNullQ (parseFloatJS (jsTrim (segs.getD 1 [])))
    else none
  { min := mn, max := mx, avg := ratAvg (jsNumQ mn) (jsNumQ (jsOrOpt mx mn)) }

/-- Deactivation coercion: `trimmedCell.toLowerCase() !== "false"`. -/
def parseDeactivate (trimmedCell : Str) : Bool :=
  decide (toLowerS trimmedCell ≠ ("false".toList))

/-- Language coercion: split on commas, trim tokens, drop empty ones. -/
def parseLanguages (trimmedCell : Str) : List Str :=
  ((splitOnC ',' trimmedCell).map jsTrim).filter (fun l => l ≠ [])

/-! ## Date parsing

`jobBoard.js` matches `^(0[1-9]|1[0-2])/(0[1-9]|[12][0-9]|3[01])/(\d{4})$`,
builds a `Date` from the ISO string, and rejects the result unless the
month and day round-trip.  `dashboard.js` uses the same regular
expression but returns the `Date` without the round-trip check. -/

/-- Numeric value of a digit character. -/
def dNum (c : Char) : ℕ := c.toNat - 48

/-- The regex digit class `\d`. -/
def isDigitChar (c : Char) : Bool := decide (c ∈ ("0123456789".toList))

/-- The month alternative `0[1-9]|1[0-2]`. -/
def matchMM (a b : Char) : Bool :=
  (a = '0' && isDigitChar b && b ≠ '0') || (a = '1' && (b = '0' || b = '1' || b = '2'))

/-- The day alternative `0[1-9]|[12][0-9]|3[01]`. -/
def matchDD (a b : Char) : Bool :=
  (a = '0' && isDigitChar b && b ≠ '0') || ((a = '1' || a = '2') && isDigitChar b) ||
    (a = '3' && (b = '0' || b = '1'))

/-- Anchored match of the date regex, returning `(mm, dd, yyyy)`. -/
def dateRegexMatch (s : Str) : Option (ℕ × ℕ × ℕ) :=
  match s with
  | [m1, m2, '/', d1, d2, '/', y1, y2, y3, y4] =>
    if matchMM m1 m2 && matchDD d1 d2 && isDigitChar y1 && isDigitChar y2 &&
        isDigitChar y3 && isDigitChar y4 then
      some (10 * dNum m1 + dNum m2, 10 * dNum d1 + dNum d2,
        1000 * dNum y1 + 100 * dNum y2 + 10 * dNum y3 + dNum y4)
    else none
  | _ => none

def isLeapYear (y : ℕ) : Bool := (y % 4 = 0 && y % 100 ≠ 0) || y % 400 = 0

def daysInMonth (y m : ℕ) : ℕ :=
  if m = 2 then (if isLeapYear y then 29 else 28)
  else if m = 4 ∨ m = 6 ∨ m = 9 ∨ m = 11 then 30
  else 31

/-- A JavaScript `Date` value: `none` models an Invalid Date. -/
abbrev JSDate := Option (ℕ × ℕ × ℕ)

/-- JavaScript `new Date` on an ISO `YYYY-MM-DD` string (the engines this
code runs on reject a day beyond the month's length as an Invalid Date;
the regex already confines `m` to 1–12 and `d` to 1–31). -/
def jsDateISO (y m d : ℕ) : JSDate :=
  if 1 ≤ m ∧ m ≤ 12 ∧ 1 ≤ d ∧ d ≤ daysInMonth y m then some (y, m, d) else none

/-- The `jobBoard.js` `parseDate`: regex match, `Date` construction, then
the month/day round-trip check (an Invalid Date has `getMonth() = NaN`,
so it also fails the check). -/
def parseDateJobBoard (s : Str) : Option (ℕ × ℕ × ℕ) :=
  match dateRegexMatch s with
  | none => none
  | some (mm, dd, yyyy) =>
    match jsDateISO yyyy mm dd with
    | none => none
    | some (y, m, d) => if m = mm ∧ d = dd then some (y, m, d) else none

/-- The `dashboard.js` `parseDate`: regex match then `Date` construction,
with no round-trip check; the result can be a non-null Invalid Date. -/
def parseDateDash (s : Str) : Option JSDate :=
  (dateRegexMatch s).map (fun t => jsDateISO t.2.2 t.1 t.2.1)

/-! ## Record normalisation (`createJobs`, `dashboard.js`)

`createJobs` builds one string-keyed object per row; the model keeps the
key/value association list in header order. -/

/-- One normalised cell value. -/
inductive CellVal where
  | vStr (s : Str)
  | vDate (d : Option JSDate)
  | vBool (b : Bool)
  | vSalary (sal : Salary)
  | vLangs (ls : List Str)
deriving DecidableEq

/-- Per-cell dispatch on the (trimmed, lower-cased) header key, in the
code's order: `date`, `deactivate?`, any key containing `salary`,
`language`, default text. -/
def parseCell (key cell : Str) : CellVal :=
  let tk := toLowerS (jsTrim key)
  let tc := jsTrim cell
  if tk = ("date".toList) then .vDate (parseDateDash tc)
  else if tk = ("deactivate?".toList) then .vBool (parseDeactivate tc)
  else if containsS tk ("salary".toList) then .vSalary (parseSalaryDash tc)
  else if tk = ("language".toList) then .vLangs (parseLanguages tc)
  else .vStr tc

/-- A normalised job object: keys in header order with their values. -/
abbrev JobObj := List (Str × CellVal)

/-- Rows shorter than the header are skipped (with a console warning);
surviving rows map each header key to its parsed cell.  The
`undefined`-cell guard in the source cannot fire once the length check
has passed, so `getD` is exact here.  An object with no keys (possible
only for an empty header) is dropped. -/
def createJobs (keys : List Str) (jobData : List (List Str)) : List JobObj :=
  jobData.filterMap (fun job =>
    if job.length < keys.length then none
    else
      let parsedJob := keys.enum.map (fun ik => (ik.2, parseCell ik.2 (job.getD ik.1 [])))
      if parsedJob = [] then none else some parsedJob)

/-- Property access `job[k]` on the keyed object. -/
def lookupKey (job : JobObj) (k : Str) : Option CellVal :=
  (job.find? (fun p => decide (p.1 = k))).map (fun p => p.2)

/-- JavaScript truthiness of a (possibly absent) cell value: `undefined`
and `null` are falsy, the empty string and `false` are falsy, every
object (arrays, salary records, `Date`s — even invalid ones) is truthy. -/
def truthyCell : Option CellVal → Bool
  | none => false
  | some (.vStr s) => decide (s ≠ [])
  | some (.vDate d) => d.isSome
  | some (.vBool b) => b
  | some (.vSalary _) => true
  | some (.vLangs _) => true

/-- `allJobs.filter((job) => !job["Deactivate?"])`. -/
def getActiveJobs (allJobs : List JobObj) : List JobObj :=
  allJobs.filter (fun job => !truthyCell (lookupKey job ("Deactivate?".toList)))

/-! ## Raw-text parsing (`parseJobData`, `dashboard.js`) -/

/-- Drop one trailing carriage return (the `\r?` of the `\r?\n` line
separator). -/
def stripCarriage (s : Str) : Str :=
  match s.reverse with
  | '\r' :: r => r.reverse
  | _ => s

/-- `data.split(/\r?\n/)`.  Splitting at `\n` and then removing a single
trailing `\r` per chunk is exactly the regex split. -/
def splitLines (s : Str) : List Str := (splitOnC '\n' s).map stripCarriage

/-- The dashboard `replaceUnderscoresInRow`: every cell's underscores
become spaces. -/
def replaceUnderscoresInRow (row : List Str) : List Str :=
  row.map (fun cell => cell.map (fun ch => if ch = '_' then ' ' else ch))

structure ParsedData where
  tableHeaders : List Str
  jobs : List (List Str)
deriving DecidableEq

/-- Trim, split into lines, parse each line, drop empty rows, drop empty
cells from each row, keep rows with at least 9 cells, replace
underscores.  The first surviving row is the header, the rest the data
(the source spreads `jobData[0]`, so callers supply non-empty data). -/
def parseJobData (data : Str) : ParsedData :=
  let jobData :=
    (((((splitLines (jsTrim data)).map parseCSVLine).filter
          (fun r => r ≠ [])).map (fun r => r.filter (fun c => c ≠ []))).filter
        (fun r => 9 ≤ r.length)).map replaceUnderscoresInRow
  { tableHeaders := jobData.headD [], jobs := jobData.tail }

/-! ## The view pipeline (`jobBoard.js`)

The list view's filter/sort/paginate/stats functions address records
through the fixed keys produced by `createJobs` for the canonical
header, so they are modelled over a fixed-shape record. -/

/-- A normalised job record under the canonical ten-column header. -/
structure JobRec where
  dateF : Option (ℕ × ℕ × ℕ)
  employer : Str
  jobTitle : Str
  pathway : Str
  languages : List Str
  salary : Salary
  contact : Str
  location : Str
  deactivate : Bool
  applyLink : Str
deriving DecidableEq

/-- `allJobs.filter((job) => !job["Deactivate?"])` over fixed-shape
records. -/
def getActiveJobsRec (allJobs : List JobRec) : List JobRec :=
  allJobs.filter (fun job => !job.deactivate)

/-- The search predicate of `getSearchResults`: the term (as given) must
occur in the lower-cased employer, the lower-cased title, or some
lower-cased language token. -/
def jobMatchesSearch (searchTerm : Str) (item : JobRec) : Bool :=
  let employer := toLowerS (jsTrim item.employer)
  let jobTitle := toLowerS (jsTrim item.jobTitle)
  containsS employer searchTerm || containsS jobTitle searchTerm ||
    item.languages.any (fun lang => containsS (toLowerS (jsTrim lang)) searchTerm)

def getSearchResults (itemsToSearch : List JobRec) (searchTerm : Str) : List JobRec :=
  itemsToSearch.filter (jobMatchesSearch searchTerm)

/-- The criteria read from the three filter controls (each value already
trimmed by `getFilterCriteria`). -/
structure Criteria where
  searchTerm : Str
  pathway : Str
  location : Str

/-- `filterItems`: search, then exact pathway, then exact location; an
empty (falsy) criterion skips its pass. -/
def filterItems (items : List JobRec) (criteria : Criteria) : List JobRec :=
  let r1 :=
    if criteria.searchTerm ≠ [] then getSearchResults items criteria.searchTerm else items
  let r2 :=
    if criteria.pathway ≠ [] then
      r1.filter (fun item => decide (jsTrim item.pathway = criteria.pathway))
    else r1
  if criteria.location ≠ [] then
    r2.filter (fun item => decide (jsTrim item.location = criteria.location))
  else r2

/-- Model of `localeCompare` on this ASCII data: sign of the
lexicographic comparison. -/
def localeCmp : Str → Str → Int
  | [], [] => 0
  | [], _ :: _ => -1
  | _ :: _, [] => 1
  | a :: as, b :: bs =>
    if a.toNat < b.toNat then -1 else if b.toNat < a.toNat then 1 else localeCmp as bs

/-- Numeric coercion of the `Date` field inside the comparator's
subtraction: `null` becomes `0`; a date contributes its `valueOf`,
modelled by an order-isomorphic day encoding. -/
def dateMillis : Option (ℕ × ℕ × ℕ) → ℚ
  | none => 0
  | some (y, m, d) => ((y * 13 + m) * 32 + d : ℕ)

/-- `a[key]` for the string-valued sortable columns. -/
def getStrField (item : JobRec) (key : Str) : Str :=
  if key = ("Employer".toList) then item.employer
  else if key = ("Job Title".toList) then item.jobTitle
  else if key = ("Pathway".toList) then item.pathway
  else if key = ("Contact Person".toList) then item.contact
  else if key = ("Location".toList) then item.location
  else if key = ("Apply".toList) then item.applyLink
  else []

/-- The comparator body of `sortItems` (before the direction factor):
salary keys compare by `min` (null as 0), date keys by the date value,
all others by `localeCompare`. -/
def cmpVal (key : Str) (a b : JobRec) : ℚ :=
  if containsS (toLowerS key) ("salary".toList) then
    jsNumQ a.salary.min - jsNumQ b.salary.min
  else if containsS (toLowerS key) ("date".toList) then
    dateMillis a.dateF - dateMillis b.dateF
  else (localeCmp (getStrField a key) (getStrField b key) : ℚ)

structure SortState where
  key : Option Str
  asc : Bool

/-- `sortItems`: no key means no sort; otherwise a stable sort by the
direction-adjusted comparator (ES2019 `Array.prototype.sort` is
stable, as is `mergeSort`). -/
def sortItems (items : List JobRec) (st : SortState) : List JobRec :=
  match st.key with
  | none => items
  | some key =>
    items.mergeSort (fun a b => decide (cmpVal key a b * (if st.asc then 1 else -1) ≤ 0))

/-- The `jobBoard.js` `paginate`: `totalPages = Math.ceil(len / perPage)`
(no floor; `(len + perPage - 1) / perPage` is that ceiling for
`perPage ≥ 1`, see `natCeilDiv_eq`), and the `slice` of the current
page. -/
def paginateJobBoard {α : Type} (items : List α) (currentPage perPage : ℕ) :
    List α × ℕ :=
  let totalPages := (items.length + perPage - 1) / perPage
  ((items.drop ((currentPage - 1) * perPage)).take perPage, totalPages)

/-- The `dashboard.js` `paginate`: the same slice, with
`totalPages = Math.max(1, Math.ceil(len / perPage))`. -/
def paginateDash {α : Type} (items : List α) (currentPage perPage : ℕ) :
    List α × ℕ :=
  let totalPages := max 1 ((items.length + perPage - 1) / perPage)
  ((items.drop ((currentPage - 1) * perPage)).take perPage, totalPages)

/-! ## Aggregate salary stats (`updateJobStats`, `jobBoard.js`) -/

/-- What the pay-range element displays. -/
inductive PayText where
  | noSalaryData
  | noDataAvailable
  | range (mn : WithTop ℚ) (mx : WithBot ℚ)
deriving DecidableEq

/-- One loop iteration: `minSalary = Math.min(minSalary, job.min)` (a
`null` min coerces to `0`), and the max side uses `job.min` when
`job.max` is falsy.  `⊤`/`⊥` model the `Infinity`/`-Infinity`
accumulator seeds. -/
def statsFoldStep (acc : WithTop ℚ × WithBot ℚ) (job : JobRec) :
    WithTop ℚ × WithBot ℚ :=
  let jmin : ℚ := jsNumQ job.salary.min
  let newMin := min acc.1 ((jmin : ℚ) : WithTop ℚ)
  let newMax :=
    if jsFalsyOpt job.salary.max then max acc.2 ((jmin : ℚ) : WithBot ℚ)
    else max acc.2 ((jsNumQ job.salary.max : ℚ) : WithBot ℚ)
  (newMin, newMax)

/-- The pay-range portion of `updateJobStats`: empty input short-circuits
to "No Salary Data"; otherwise the fold runs and `!minSalary &&
!maxSalary` (both zero — `Infinity` is truthy) selects "No Data
Available". -/
def updateJobStatsPay (jobs : List JobRec) : PayText :=
  if jobs = [] then .noSalaryData
  else
    let mm := jobs.foldl statsFoldStep (⊤, ⊥)
    if mm.1 = ((0 : ℚ) : WithTop ℚ) ∧ mm.2 = ((0 : ℚ) : WithBot ℚ) then .noDataAvailable
    else .range mm.1 mm.2

/-! ## Dashboard aggregates and salary-bucket filter (`dashboard.js`) -/

/-- The bar chart's salary pool: each record's `avg`, keeping only
defined values greater than zero. -/
def chartSalaries (jobs : List JobRec) : List ℚ :=
  (jobs.map (fun job => job.salary.avg)).filter (fun s => decide (0 < s))

/-- `salaries.length > 0 ? Math.min(...salaries) : 0`. -/
def chartMinSalary (jobs : List JobRec) : ℚ :=
  match chartSalaries jobs with
  | [] => 0
  | s :: rest => rest.foldl min s

/-- `salaries.length > 0 ? Math.max(...salaries) : 0`. -/
def chartMaxSalary (jobs : List JobRec) : ℚ :=
  match chartSalaries jobs with
  | [] => 0
  | s :: rest => rest.foldl max s

/-- The salary-bucket predicate inside `updateFromFilters`: a falsy
`avg` (zero) or the `All` selection passes immediately; otherwise the
record's `avg` is tested against the selected band. -/
def salaryBucketPass (job : JobRec) (selectedSalary : Str) : Bool :=
  let salary := job.salary.avg
  if salary = 0 ∨ selectedSalary = ("All".toList) then true
  else if selectedSalary = ("<50k".toList) then decide (salary < 50000)
  else if selectedSalary = ("50-75k".toList) then decide (50000 ≤ salary ∧ salary < 75000)
  else if selectedSalary = ("75-100k".toList) then decide (75000 ≤ salary ∧ salary < 100000)
  else if selectedSalary = (">100k".toList) then decide (100000 ≤ salary)
  else true

def salaryBucketFilter (jobs : List JobRec) (selectedSalary : Str) : List JobRec :=
  jobs.filter (fun job => salaryBucketPass job selectedSalary)

/-! ## Shared lemmas -/

/-- For `s ≥ 1`, `Math.ceil(l / s)` is the natural number
`(l + s - 1) / s` used in the paginate models. -/
theorem natCeilDiv_eq (l s : ℕ) (hs : 1 ≤ s) :
    (⌈(l : ℚ) / (s : ℚ)⌉).toNat = (l + s - 1) / s := by
  have hs0 : (0 : ℚ) < s := by exact_mod_cast hs
  have h1 := Nat.div_add_mod (l + s - 1) s
  have hr : (l + s - 1) % s < s := Nat.mod_lt _ hs
  set q := (l + s - 1) / s with hq
  set r := (l + s - 1) % s with hrdef
  have key : (s : ℤ) * q + r = (l : ℤ) + s - 1 := by
    have hle : 1 ≤ l + s := by omega
    zify [hle] at h1
    linarith [h1]
  have hceil : ⌈(l : ℚ) / (s : ℚ)⌉ = (q : ℤ) := by
    rw [Int.ceil_eq_iff]
    constructor
    · rw [lt_div_iff₀ hs0]
      have hz : ((q : ℤ) - 1) * s < l := by nlinarith [key, hr]
      calc ((q : ℚ) - 1) * s = (((q : ℤ) - 1) * s : ℤ) := by push_cast; ring
        _ < ((l : ℤ) : ℚ) := by exact_mod_cast hz
        _ = (l : ℚ) := by push_cast; ring
    · rw [div_le_iff₀ hs0]
      have hz : (l : ℤ) ≤ (q : ℤ) * s := by nlinarith [key, hr]
      calc (l : ℚ) = ((l : ℤ) : ℚ) := by push_cast; ring
        _ ≤ (((q : ℤ) * s : ℤ) : ℚ) := by exact_mod_cast hz
        _ = (q : ℚ) * s := by push_cast; ring
  rw [hceil]
  simp

theorem statsFold_fst_le (jobs : List JobRec) :
    ∀ acc : WithTop ℚ × WithBot ℚ, (jobs.foldl statsFoldStep acc).1 ≤ acc.1 := by
  induction jobs with
  | nil => intro acc; simp
  | cons a l ih =>
    intro acc
    simp only [List.foldl_cons]
    exact le_trans (ih (statsFoldStep acc a)) (min_le_left _ _)

theorem statsFold_snd_ge (jobs : List JobRec) :
    ∀ acc : WithTop ℚ × WithBot ℚ, acc.2 ≤ (jobs.foldl statsFoldStep acc).2 := by
  induction jobs with
  | nil => intro acc; simp
  | cons a l ih =>
    intro acc
    simp only [List.foldl_cons]
    have h0 : acc.2 ≤ (statsFoldStep acc a).2 := by
      unfold statsFoldStep
      by_cases hf : jsFalsyOpt a.salary.max = true <;> simp [hf, le_max_left]
    exact le_trans h0 (ih (statsFoldStep acc a))

theorem statsFold_fst_ne_top (jobs : List JobRec) (hne : jobs ≠ [])
    (acc : WithTop ℚ × WithBot ℚ) : (jobs.foldl statsFoldStep acc).1 ≠ ⊤ := by
  cases jobs with
  | nil => exact absurd rfl hne
  | cons a l =>
    simp only [List.foldl_cons]
    have h1 : (l.foldl statsFoldStep (statsFoldStep acc a)).1 ≤ (statsFoldStep acc a).1 :=
      statsFold_fst_le l _
    have h2 : (statsFoldStep acc a).1 ≤ ((jsNumQ a.salary.min : ℚ) : WithTop ℚ) :=
      min_le_right _ _
    exact ((h1.trans h2).trans_lt (WithTop.coe_lt_top _)).ne

theorem statsFold_snd_ne_bot (jobs : List JobRec) (hne : jobs ≠ [])
    (acc : WithTop ℚ × WithBot ℚ) : (jobs.foldl statsFoldStep acc).2 ≠ ⊥ := by
  cases jobs with
  | nil => exact absurd rfl hne
  | cons a l =>
    simp only [List.foldl_cons]
    have h1 : (statsFoldStep acc a).2 ≤ (l.foldl statsFoldStep (statsFoldStep acc a)).2 :=
      statsFold_snd_ge l _
    have h2 : ∃ v : ℚ, ((v : ℚ) : WithBot ℚ) ≤ (statsFoldStep acc a).2 := by
      unfold statsFoldStep
      by_cases hf : jsFalsyOpt a.salary.max = true
      · exact ⟨jsNumQ a.salary.min, by simp [hf, le_max_right]⟩
      · exact ⟨jsNumQ a.salary.max, by simp [hf, le_max_right]⟩
    obtain ⟨v, hv⟩ := h2
    exact ((WithBot.bot_lt_coe v).trans_le (hv.trans h1)).ne'

theorem statsFold_zero_fixed (jobs : List JobRec)
    (h : ∀ j ∈ jobs, j.salary.min = none ∧ jsFalsyOpt j.salary.max = true) :
    ∀ (x : WithTop ℚ) (y : WithBot ℚ),
      jobs.foldl statsFoldStep (min x 0, max y 0) = (min x 0, max y 0) := by
  induction jobs with
  | nil => intro x y; simp
  | cons a l ih =>
    intro x y
    obtain ⟨ha1, ha2⟩ := h a (List.mem_cons_self a l)
    have hstep : statsFoldStep (min x 0, max y 0) a = (min x 0, max y 0) := by
      unfold statsFoldStep
      simp [ha1, ha2, jsNumQ, min_assoc, max_assoc]
    simp only [List.foldl_cons, hstep]
    exact ih (fun j hj => h j (List.mem_cons_of_mem a hj)) x y

theorem statsFold_missing_le_zero (jobs : List JobRec) :
    ∀ acc : WithTop ℚ × WithBot ℚ, (∃ j ∈ jobs, j.salary.min = none) →
      (jobs.foldl statsFoldStep acc).1 ≤ ((0 : ℚ) : WithTop ℚ) := by
  induction jobs with
  | nil => intro acc h; obtain ⟨j, hj, -⟩ := h; cases hj
  | cons a l ih =>
    intro acc h
    simp only [List.foldl_cons]
    obtain ⟨j, hj, hjm⟩ := h
    rcases List.mem_cons.mp hj with rfl | hjl
    · have hstep : (statsFoldStep acc j).1 ≤ ((0 : ℚ) : WithTop ℚ) := by
        unfold statsFoldStep
        simp [hjm, jsNumQ, min_le_right]
      exact (statsFold_fst_le l _).trans hstep
    · exact ih (statsFoldStep acc a) ⟨j, hjl, hjm⟩

/-! ## Concrete fixtures -/

def emptySalary : Salary := { min := none, max := none, avg := 0 }

/-- An active record with no parseable salary (`min = max = null`,
`avg = 0`, exactly what `createJobs` produces for such a cell). -/
def jobNoSalary : JobRec :=
  { dateF := none, employer := ("NoPay Co".toList), jobTitle := ("Intern".toList),
    pathway := ("Web".toList), languages := [("JS".toList)], salary := emptySalary,
    contact := [], location := ("Remote".toList), deactivate := false, applyLink := [] }

/-- An active record with salary `$60,000 - $80,000` and language
Python. -/
def jobSixtyEighty : JobRec :=
  { dateF := none, employer := ("Acme".toList), jobTitle := ("Dev".toList),
    pathway := ("Web".toList), languages := [("Python".toList)],
    salary := { min := some 60000, max := some 80000, avg := 70000 },
    contact := [], location := ("Remote".toList), deactivate := false, applyLink := [] }

/-! ## C2 — aggregate salary min/max and missing salaries -/

/-- C2 counterexample: in `updateJobStats` a record whose salary did not
parse (`min = null`) contributes the value `0` to the aggregate
minimum: with one missing-salary record and one `$60,000 - $80,000`
record the displayed range is `$0.00 - $80,000.00`, not
`$60,000.00 - $80,000.00`. -/
theorem c2_stats_counterexample :
    updateJobStatsPay [jobNoSalary, jobSixtyEighty] =
      .range ((0 : ℚ) : WithTop ℚ) ((80000 : ℚ) : WithBot ℚ) ∧
    jobNoSalary.salary.min = none ∧
    jobSixtyEighty.salary.min = some 60000 ∧
    ((0 : ℚ) : WithTop ℚ) ≠ ((60000 : ℚ) : WithTop ℚ) := by decide

/-- C2 amended: in `jobBoard.js`'s `updateJobStats` a missing salary
contributes `0` (never skipped): the aggregate minimum is `≤ 0`
whenever some record's `min` is `null`.  `Infinity`/`-Infinity` still
never leak (a non-empty collection always folds to finite bounds), and
a collection in which every salary is missing yields the explicit
"No Data Available" sentinel; the dashboard chart aggregates
(`renderCharts`) instead drop records whose `avg` is not positive, so
an all-missing collection yields the `0` sentinel there. -/
theorem c2_stats_amended (jobs : List JobRec) (hne : jobs ≠ []) :
    (∀ mn mx, updateJobStatsPay jobs = .range mn mx → mn ≠ ⊤ ∧ mx ≠ ⊥) ∧
    ((∀ j ∈ jobs, j.salary.min = none ∧ jsFalsyOpt j.salary.max = true) →
      updateJobStatsPay jobs = .noDataAvailable) ∧
    ((∃ j ∈ jobs, j.salary.min = none) →
      (jobs.foldl statsFoldStep (⊤, ⊥)).1 ≤ ((0 : ℚ) : WithTop ℚ)) ∧
    ((∀ j ∈ jobs, j.salary.avg = 0) →
      chartMinSalary jobs = 0 ∧ chartMaxSalary jobs = 0) := by
  refine ⟨?_, ?_, ?_, ?_⟩
  · intro mn mx h
    by_cases hz : (jobs.foldl statsFoldStep (⊤, ⊥)).1 = ((0 : ℚ) : WithTop ℚ) ∧
        (jobs.foldl statsFoldStep (⊤, ⊥)).2 = ((0 : ℚ) : WithBot ℚ)
    · simp [updateJobStatsPay, hne, hz] at h
    · simp only [updateJobStatsPay, if_neg hne, if_neg hz, PayText.range.injEq] at h
      obtain ⟨h1, h2⟩ := h
      subst h1; subst h2
      exact ⟨statsFold_fst_ne_top jobs hne _, statsFold_snd_ne_bot jobs hne _⟩
  · intro hall
    have hsplit : jobs.foldl statsFoldStep (⊤, ⊥) = (min ⊤ 0, max ⊥ 0) := by
      cases jobs with
      | nil => exact absurd rfl hne
      | cons a l =>
        obtain ⟨ha1, ha2⟩ := hall a (List.mem_cons_self a l)
        have hstep : statsFoldStep (⊤, ⊥) a = (min ⊤ 0, max ⊥ 0) := by
          unfold statsFoldStep
          simp [ha1, ha2, jsNumQ]
        simp only [List.foldl_cons, hstep]
        exact statsFold_zero_fixed l
          (fun j hj => hall j (List.mem_cons_of_mem a hj)) ⊤ ⊥
    have hmin : (min (⊤ : WithTop ℚ) 0) = ((0 : ℚ) : WithTop ℚ) := by
      simp
    have hmax : (max (⊥ : WithBot ℚ) 0) = ((0 : ℚ) : WithBot ℚ) := by
      simp
    simp [updateJobStatsPay, hne, hsplit, hmin, hmax]
  · exact fun h => statsFold_missing_le_zero jobs _ h
  · intro hall
    have hempt : chartSalaries jobs = [] := by
      unfold chartSalaries
      rw [List.filter_eq_nil_iff]
      intro s hs
      obtain ⟨j, hj, rfl⟩ := List.mem_map.mp hs
      simp [hall j hj]
    simp [chartMinSalary, chartMaxSalary, hempt]

/-- C2 witness: the amended theorem at the one-record all-missing
collection. -/
theorem c2_stats_witness : updateJobStatsPay [jobNoSalary] = .noDataAvailable :=
  (c2_stats_amended [jobNoSalary] (by decide)).2.1 (by decide)

/-! ## C3 — pagination -/

/-- C3 counterexample: the `jobBoard.js` `paginate` computes
`totalPages = Math.ceil(0 / 10) = 0` on an empty collection; the
claimed floor of 1 is absent there. -/
theorem c3_paginate_counterexample :
    (paginateJobBoard ([] : List ℕ) 1 10).2 = 0 := by decide

/-- C3 amended: both paginate implementations return at most `perPage`
items; the `dashboard.js` one computes
`totalPages = max 1 ⌈len / perPage⌉` (so ≥ 1 even when empty), while
the `jobBoard.js` one computes the bare `⌈len / perPage⌉`, which is `0`
for an empty collection. -/
theorem c3_paginate_amended {α : Type} (items : List α) (page size : ℕ)
    (hpage : 1 ≤ page) (hsize : 1 ≤ size) :
    (paginateDash items page size).1.length ≤ size ∧
    (paginateDash items page size).2 = max 1 (⌈(items.length : ℚ) / (size : ℚ)⌉).toNat ∧
    1 ≤ (paginateDash items page size).2 ∧
    (paginateJobBoard items page size).1.length ≤ size ∧
    (paginateJobBoard items page size).2 = (⌈(items.length : ℚ) / (size : ℚ)⌉).toNat := by
  have hceil := natCeilDiv_eq items.length size hsize
  refine ⟨?_, ?_, ?_, ?_, ?_⟩
  · simpa [paginateDash] using
      (List.length_take_le size (items.drop ((page - 1) * size)))
  · simp [paginateDash, hceil]
  · simp [paginateDash]
  · simpa [paginateJobBoard] using
      (List.length_take_le size (items.drop ((page - 1) * size)))
  · simp [paginateJobBoard, hceil]

/-- C3 witness: the amended theorem at a three-item list, page 1, page
size 2. -/
theorem c3_paginate_witness :
    (paginateDash [0, 1, 2] 1 2).1.length ≤ 2 ∧
    (paginateDash [0, 1, 2] 1 2).2 =
      max 1 (⌈(([0, 1, 2] : List ℕ).length : ℚ) / ((2 : ℕ) : ℚ)⌉).toNat ∧
    1 ≤ (paginateDash [0, 1, 2] 1 2).2 ∧
    (paginateJobBoard [0, 1, 2] 1 2).1.length ≤ 2 ∧
    (paginateJobBoard [0, 1, 2] 1 2).2 =
      (⌈(([0, 1, 2] : List ℕ).length : ℚ) / ((2 : ℕ) : ℚ)⌉).toNat :=
  c3_paginate_amended ([0, 1, 2] : List ℕ) 1 2 (by decide) (by decide)

/-! ## C4 — free-text search -/

/-- C4 counterexample: `getSearchResults` lower-cases the record fields
but not the search term, so changing only the term's case changes the
result set: "python" matches the Python-language record, "Python" does
not. -/
theorem c4_search_counterexample :
    getSearchResults [jobSixtyEighty] ("python".toList) = [jobSixtyEighty] ∧
    getSearchResults [jobSixtyEighty] ("Python".toList) = [] := by decide

/-- C4 amended: the search keeps a record iff the term, exactly as
given, is a substring of the lower-cased employer, the lower-cased
title, or some lower-cased language token; the match is therefore
case-insensitive in the record fields only, not in the term. -/
theorem c4_search_amended (items : List JobRec) (searchTerm : Str) (r : JobRec) :
    r ∈ getSearchResults items searchTerm ↔
      r ∈ items ∧
        (searchTerm <:+: toLowerS (jsTrim r.employer) ∨
         searchTerm <:+: toLowerS (jsTrim r.jobTitle) ∨
         ∃ lang ∈ r.languages, searchTerm <:+: toLowerS (jsTrim lang)) := by
  unfold getSearchResults jobMatchesSearch containsS
  rw [List.mem_filter]
  simp only [Bool.or_eq_true, decide_eq_true_eq, List.any_eq_true]
  tauto

/-! ## C5 — date parsing -/

theorem isDigitChar_cases {c : Char} (h : isDigitChar c = true) :
    c = '0' ∨ c = '1' ∨ c = '2' ∨ c = '3' ∨ c = '4' ∨ c = '5' ∨ c = '6' ∨
      c = '7' ∨ c = '8' ∨ c = '9' := by
  have hm := of_decide_eq_true h
  simpa using hm

theorem dNum_le_nine {c : Char} (h : isDigitChar c = true) : dNum c ≤ 9 := by
  rcases isDigitChar_cases h with rfl | rfl | rfl | rfl | rfl | rfl | rfl | rfl | rfl | rfl <;>
    decide

theorem dNum_pos {c : Char} (h : isDigitChar c = true) (h0 : c ≠ '0') : 1 ≤ dNum c := by
  rcases isDigitChar_cases h with rfl | rfl | rfl | rfl | rfl | rfl | rfl | rfl | rfl | rfl
  · exact absurd rfl h0
  all_goals decide

theorem matchMM_bounds {a b : Char} (h : matchMM a b = true) :
    1 ≤ 10 * dNum a + dNum b ∧ 10 * dNum a + dNum b ≤ 12 := by
  unfold matchMM at h
  simp only [Bool.or_eq_true, Bool.and_eq_true, decide_eq_true_eq] at h
  rcases h with ⟨⟨ha, hd⟩, h0⟩ | ⟨ha, hb⟩
  · subst ha
    have h1 := dNum_pos hd h0
    have h2 := dNum_le_nine hd
    have h3 : dNum '0' = 0 := by decide
    omega
  · subst ha
    rcases hb with (rfl | rfl) | rfl <;> decide

theorem matchDD_bounds {a b : Char} (h : matchDD a b = true) :
    1 ≤ 10 * dNum a + dNum b ∧ 10 * dNum a + dNum b ≤ 31 := by
  unfold matchDD at h
  simp only [Bool.or_eq_true, Bool.and_eq_true, decide_eq_true_eq] at h
  rcases h with (⟨⟨ha, hd⟩, h0⟩ | ⟨ha, hd⟩) | ⟨ha, hb⟩
  · subst ha
    have h1 := dNum_pos hd h0
    have h2 := dNum_le_nine hd
    have h3 : dNum '0' = 0 := by decide
    omega
  · have h2 := dNum_le_nine hd
    rcases ha with rfl | rfl <;>
      · have h3 : dNum '1' = 1 ∧ dNum '2' = 2 := by decide
        omega
  · subst ha
    rcases hb with rfl | rfl <;> decide

theorem dateRegexMatch_bounds {s : Str} {m d y : ℕ}
    (h : dateRegexMatch s = some (m, d, y)) :
    1 ≤ m ∧ m ≤ 12 ∧ 1 ≤ d ∧ d ≤ 31 := by
  unfold dateRegexMatch at h
  split at h
  case h_1 m1 m2 d1 d2 y1 y2 y3 y4 =>
    split at h
    case isTrue hcond =>
      simp only [Bool.and_eq_true] at hcond
      obtain ⟨⟨⟨⟨⟨hMM, hDD⟩, hy1⟩, hy2⟩, hy3⟩, hy4⟩ := hcond
      simp only [Option.some.injEq, Prod.mk.injEq] at h
      obtain ⟨rfl, rfl, rfl⟩ := h
      exact ⟨(matchMM_bounds hMM).1, (matchMM_bounds hMM).2,
        (matchDD_bounds hDD).1, (matchDD_bounds hDD).2⟩
    case isFalse => cases h
  case h_2 => cases h

/-- C5 counterexample: the `dashboard.js` `parseDate` has no round-trip
check — on "02/30/2024" it returns a non-null (Invalid) `Date`, where
the claim requires `null`. -/
theorem c5_parseDate_counterexample :
    parseDateDash ("02/30/2024".toList) ≠ none ∧
    parseDateDash ("02/30/2024".toList) = some none := by decide

/-- C5 amended: the claimed behaviour holds for the `jobBoard.js`
`parseDate`: it returns the date with exactly the written components
iff the string matches the zero-padded `MM/DD/YYYY` pattern and the
day fits the month, and `null` otherwise (impossible dates such as
02/30/2024 fail the month/day round-trip check).  The `dashboard.js`
copy lacks the round-trip check and returns a non-null Invalid `Date`
for 02/30/2024. -/
theorem c5_parseDate_amended :
    (∀ (s : Str) (m d y : ℕ),
      parseDateJobBoard s = some (y, m, d) ↔
        dateRegexMatch s = some (m, d, y) ∧ d ≤ daysInMonth y m) ∧
    parseDateJobBoard ("02/30/2024".toList) = none ∧
    parseDateJobBoard ("13/01/2024".toList) = none ∧
    parseDateJobBoard ("01/15/2025".toList) = some (2025, 1, 15) ∧
    parseDateDash ("02/30/2024".toList) = some none := by
  refine ⟨?_, by decide, by decide, by decide, by decide⟩
  intro s m d y
  constructor
  · intro h
    unfold parseDateJobBoard at h
    cases hm : dateRegexMatch s with
    | none => rw [hm] at h; cases h
    | some t =>
      obtain ⟨mm, dd, yyyy⟩ := t
      rw [hm] at h
      by_cases hcd : 1 ≤ mm ∧ mm ≤ 12 ∧ 1 ≤ dd ∧ dd ≤ daysInMonth yyyy mm
      · have hiso : jsDateISO yyyy mm dd = some (yyyy, mm, dd) := by
          unfold jsDateISO; rw [if_pos hcd]
        simp only [hiso, Option.some.injEq, Prod.mk.injEq, and_self, if_pos] at h
        obtain ⟨rfl, rfl, rfl⟩ := h
        refine ⟨?_, hcd.2.2.2⟩
        simp [hm]
      · have hiso : jsDateISO yyyy mm dd = none := by
          unfold jsDateISO; rw [if_neg hcd]
        simp [hiso] at h
  · rintro ⟨heq, hle⟩
    have hb := dateRegexMatch_bounds heq
    have hiso : jsDateISO y m d = some (y, m, d) := by
      unfold jsDateISO; rw [if_pos ⟨hb.1, hb.2.1, hb.2.2.1, hle⟩]
    unfold parseDateJobBoard
    rw [heq]
    simp [hiso]

/-! ## C6 — the salary-bucket filter and missing salaries -/

/-- C6 counterexample: a record with no computed `avg` (`avg = 0`,
`min = null`) passes the specific `>100k` bucket — the `!salary`
falsy-bypass fires before the bucket test, where the claim requires
exclusion. -/
theorem c6_bucket_counterexample :
    salaryBucketFilter [jobNoSalary] (">100k".toList) = [jobNoSalary] ∧
    jobNoSalary.salary.min = none ∧ jobNoSalary.salary.avg = 0 := by decide

/-- C6 amended: a record with no computed `avg` passes the salary-bucket
filter for every selection, specific buckets included — missing-salary
records are never excluded by this filter. -/
theorem c6_bucket_amended (job : JobRec) (selectedSalary : Str)
    (havg : job.salary.avg = 0) : salaryBucketPass job selectedSalary = true := by
  unfold salaryBucketPass
  simp [havg]

/-- C6 witness: the amended theorem at the missing-salary record and the
`>100k` bucket. -/
theorem c6_bucket_witness : salaryBucketPass jobNoSalary (">100k".toList) = true :=
  c6_bucket_amended jobNoSalary (">100k".toList) (by decide)

/-! ## C7 — deactivated records never reappear -/

theorem mem_of_mem_condFilter {p : JobRec → Bool} {c : Prop} [Decidable c]
    {l : List JobRec} {j : JobRec} (hj : j ∈ (if c then l.filter p else l)) :
    j ∈ l := by
  split at hj
  · exact List.mem_of_mem_filter hj
  · exact hj

theorem mem_filterItems {items : List JobRec} {criteria : Criteria} {j : JobRec}
    (hj : j ∈ filterItems items criteria) : j ∈ items := by
  unfold filterItems at hj
  exact mem_of_mem_condFilter (mem_of_mem_condFilter (mem_of_mem_condFilter hj))

/-- C7 (confirmed): every record surviving the filter → sort → paginate
pipeline over `getActiveJobs` output has its `Deactivate?` flag false —
the pipeline stages only reorder or drop records, never reintroduce
one. -/
theorem c7_active_only (allJobs : List JobRec) (criteria : Criteria) (st : SortState)
    (page size : ℕ) (j : JobRec)
    (hj : j ∈ (paginateJobBoard
      (sortItems (filterItems (getActiveJobsRec allJobs) criteria) st) page size).1) :
    j.deactivate = false := by
  have h1 : j ∈ sortItems (filterItems (getActiveJobsRec allJobs) criteria) st :=
    List.mem_of_mem_drop (List.mem_of_mem_take hj)
  have h2 : j ∈ filterItems (getActiveJobsRec allJobs) criteria := by
    unfold sortItems at h1
    cases hk : st.key with
    | none => rw [hk] at h1; exact h1
    | some k =>
      rw [hk] at h1
      exact ((List.mergeSort_perm _ _).mem_iff).mp h1
  have h3 : j ∈ getActiveJobsRec allJobs := mem_filterItems h2
  unfold getActiveJobsRec at h3
  have h4 := List.of_mem_filter h3
  simpa using h4

/-- C7 witness: the theorem at a one-record active collection, empty
criteria, no sort key, page 1 of size 10. -/
theorem c7_active_only_witness : jobNoSalary.deactivate = false :=
  c7_active_only [jobNoSalary] ⟨[], [], []⟩ ⟨none, true⟩ 1 10 jobNoSalary (by decide)

/-! ## C8 — the deactivation-flag coercion -/

/-- C8 (confirmed): the coercion yields `false` iff the trimmed cell
case-insensitively equals "false"; everything else — the empty string
included — yields `true`.  The middle conjunct ties the coercion to the
`createJobs` dispatch for the `Deactivate?` column. -/
theorem c8_deactivate_coercion (cell : Str) :
    (parseDeactivate (jsTrim cell) = false ↔ toLowerS (jsTrim cell) = ("false".toList)) ∧
    parseCell ("Deactivate?".toList) cell = .vBool (parseDeactivate (jsTrim cell)) ∧
    parseDeactivate [] = true := by
  refine ⟨?_, rfl, by decide⟩
  unfold parseDeactivate
  simp

/-! ## C10 — a zero salary parses to null -/

/-- C10 (confirmed): `parseFloat(seg) || null` collapses a parsed `0` to
`null`, for the first segment (`min`) and the second (`max`) alike; in
particular `$0` produces a record indistinguishable from one with an
empty salary cell. -/
theorem c10_zero_salary (cell : Str) :
    (parseFloatJS (jsTrim ((salarySegments cell).headD [])) = some 0 →
      (parseSalaryDash cell).min = none) ∧
    (1 < (salarySegments cell).length →
      parseFloatJS (jsTrim ((salarySegments cell).getD 1 [])) = some 0 →
      (parseSalaryDash cell).max = none) ∧
    parseSalaryDash ("$0".toList) = parseSalaryDash [] := by
  refine ⟨?_, ?_, by decide⟩
  · intro h
    unfold parseSalaryDash
    dsimp only
    rw [h]
    simp [jsOrNullQ]
  · intro hlen h
    unfold parseSalaryDash
    dsimp only
    rw [if_pos hlen, h]
    simp [jsOrNullQ]

/-- C10 witness: the theorem at the cell `$0 - $0`, whose two segments
both parse to `0`: the stored `min` and `max` are both `null`. -/
theorem c10_zero_salary_witness :
    parseFloatJS (jsTrim ((salarySegments ("$0 - $0".toList)).headD [])) = some 0 ∧
    1 < (salarySegments ("$0 - $0".toList)).length ∧
    (parseSalaryDash ("$0 - $0".toList)).min = none ∧
    (parseSalaryDash ("$0 - $0".toList)).max = none :=
  ⟨by decide, by decide, (c10_zero_salary (("$0 - $0").toList)).1 (by decide),
    (c10_zero_salary (("$0 - $0").toList)).2.1 (by decide) (by decide)⟩

/-! ## C9 — CSV line splitting and quote handling -/

/-- C9 counterexample: a doubled quote inside a quoted field is not
decoded as a literal quote by the dashboard parser — the cell comes out
as `ab`, not `a"b`. -/
theorem c9_csv_counterexample :
    parseCSVLine ("\"a\"\"b\",c".toList) = [("ab".toList), ("c".toList)] ∧
    parseCSVLine ("\"a\"\"b\",c".toList) ≠ [("a\"b".toList), ("c".toList)] := by decide

/-- C9 amended: the dashboard parser splits exactly at the commas
outside double-quoted spans (general characterisation), but strips all
quote characters from the cells, so a doubled quote decodes to nothing
rather than to one literal quote. -/
theorem c9_csv_amended :
    (∀ line : Str, parseCSVLine line = (splitUnquoted line false).map cleanChunk) ∧
    parseCSVLine ("\"x,y\",z".toList) = [("x,y".toList), ("z".toList)] ∧
    parseCSVLine ("\"a\"\"b\",c".toList) = [("ab".toList), ("c".toList)] :=
  ⟨parseCSVLine_splits, by decide, by decide⟩

/-! ## C1 — the normalization scenario -/

/-- The scenario CSV exactly as the claim gives it (empty Contact
Person cell). -/
def c1CsvText : String :=
  "Date,Employer,Job Title,Pathway,Language,Salary Range,Contact Person,Location,Deactivate?,Apply\n01/15/2025,Acme,Dev,Web,\"JS,Python\",\"$60,000 - $80,000\",,Remote,FALSE,http://x"

/-- The same row with the Contact Person cell filled. -/
def c1CsvTextFilled : String :=
  "Date,Employer,Job Title,Pathway,Language,Salary Range,Contact Person,Location,Deactivate?,Apply\n01/15/2025,Acme,Dev,Web,\"JS,Python\",\"$60,000 - $80,000\",N/A,Remote,FALSE,http://x"

/-- The claim's pipeline: parse, normalise, keep active records. -/
def c1Pipeline (text : String) : List JobObj :=
  getActiveJobs (createJobs (parseJobData text.toList).tableHeaders
    (parseJobData text.toList).jobs)

/-- C1 counterexample: on the claim's exact input the pipeline yields
no record at all (not one): `parseJobData` deletes the empty Contact
Person cell, the data row shrinks to 9 cells against 10 header keys,
and `createJobs` skips it as malformed. -/
theorem c1_pipeline_counterexample :
    c1Pipeline c1CsvText = [] ∧
    (parseJobData (c1CsvText.toList)).tableHeaders.length = 10 ∧
    ((parseJobData (c1CsvText.toList)).jobs.map List.length) = [9] := by decide

/-- C1 amended: the given row is dropped (empty-cell removal makes it
shorter than the header), so the pipeline yields zero records; with the
Contact Person cell non-empty the pipeline yields exactly one active
record whose languages, salary and deactivation flag are as claimed. -/
theorem c1_pipeline_amended :
    c1Pipeline c1CsvText = [] ∧
    (c1Pipeline c1CsvTextFilled).length = 1 ∧
    lookupKey ((c1Pipeline c1CsvTextFilled).headD []) ("Language".toList) =
      some (.vLangs [("JS".toList), ("Python".toList)]) ∧
    lookupKey ((c1Pipeline c1CsvTextFilled).headD []) ("Salary Range".toList) =
      some (.vSalary { min := some 60000, max := some 80000, avg := 70000 }) ∧
    lookupKey ((c1Pipeline c1CsvTextFilled).headD []) ("Deactivate?".toList) =
      some (.vBool false) := by decide

end CodeYouJobBoard
